import Mathlib

/-!
Shallow embedding of `scripts/migrate_all.py` (SQL Server → PostgreSQL
migration helper) and verification of its specification claims.

Conventions of the embedding:
* Python strings are Lean `String`s; nullable driver values are `Option`s.
* Python `dict` environments are association lists `List (String × String)`.
* Byte strings are `List Nat` (each entry a byte 0..255); decoded text is a
  list of Unicode codepoints rendered through `Char.ofNat`.
* The CSV module is abstracted: an intermediate file is represented by the
  function `Char → List (List String)` giving, for each candidate delimiter,
  the record sequence that parsing the file with that delimiter yields.
* Filesystem and database side effects are made explicit: functions return
  trace structures recording the SELECT statements executed, the rows written,
  the subprocess invocations, and the `os.remove` attempts.
-/

namespace Migrate

/-! ### Kernel-executable string primitives

`String.toLower`, `.trim`, `.splitOn`, `.replace` and `.startsWith` from the
library are defined through well-founded recursion or iterators and do not
reduce inside the kernel, so the Python string operations are embedded here
as structurally recursive functions over character lists.  The identifiers,
flags and messages they are applied to are ASCII, where these agree with
Python's `str.lower`/`str.strip`/`str.split`/`str.replace`/`startswith`. -/

/-- ASCII lowering of one character (`str.lower` on the ASCII range). -/
def pyLowerChar (c : Char) : Char :=
  if 'A' ≤ c ∧ c ≤ 'Z' then Char.ofNat (c.toNat + 32) else c

/-- `str.lower`. -/
def pyLower (s : String) : String := String.mk (s.toList.map pyLowerChar)

/-- ASCII whitespace, the characters `str.strip()` removes. -/
def isPySpace (c : Char) : Bool :=
  c = ' ' || c = '\t' || c = '\n' || c = '\r' || c = '\x0b' || c = '\x0c'

/-- `str.strip()`: drop whitespace from both ends. -/
def pyStrip (s : String) : String :=
  String.mk (((s.toList.dropWhile isPySpace).reverse.dropWhile isPySpace).reverse)

/-- Accumulator loop for `pySplit`. -/
def pySplitGo (sep : Char) : List Char → List Char → List String
  | [], acc => [String.mk acc.reverse]
  | c :: t, acc =>
    if c = sep then String.mk acc.reverse :: pySplitGo sep t []
    else pySplitGo sep t (c :: acc)

/-- `str.split(sep)` for a one-character separator (keeps empty pieces). -/
def pySplit (sep : Char) (s : String) : List String := pySplitGo sep s.toList []

/-- `str.startswith(pre)`. -/
def strStarts (s pre : String) : Bool := List.isPrefixOf pre.toList s.toList

/-- A column-metadata record as produced by `get_mssql_columns`
(`INFORMATION_SCHEMA.COLUMNS` in `ORDINAL_POSITION` order). -/
structure Column where
  name : String
  data_type : Option String
  char_max_length : Option Int
  numeric_precision : Option Int
  numeric_scale : Option Int
deriving Repr, DecidableEq, Inhabited

/-- The branch chain of `mssql_type_to_pg` (lines 86-116), applied to the
already-lowered type name `t = (data_type or '').lower()` of line 85.
Python truthiness of `numeric_precision` means: not `None` and not `0`. -/
def mssql_pg_of_lowered (t : String) (numeric_precision : Option Int)
    (numeric_scale : Option Int) : String :=
  if t = "int" then "integer"
  else if t = "bigint" then "bigint"
  else if t = "smallint" ∨ t = "tinyint" then "smallint"
  else if t = "bit" then "boolean"
  else if t = "float" then "double precision"
  else if t = "real" then "real"
  else if t = "decimal" ∨ t = "numeric" then
    match numeric_precision, numeric_scale with
    | some p, some s =>
        if p ≠ 0 then "numeric(" ++ toString p ++ "," ++ toString s ++ ")"
        else "numeric"
    | _, _ => "numeric"
  else if t = "money" then "numeric(19,4)"
  else if t = "uniqueidentifier" then "uuid"
  else if strStarts t "varchar" ∨ strStarts t "nvarchar" ∨ t = "text" ∨ t = "ntext" then "text"
  else if t = "datetime" ∨ t = "datetime2" ∨ t = "smalldatetime" ∨ t = "datetimeoffset" then "timestamp"
  else if t = "date" then "date"
  else if t = "time" then "time"
  else if t = "binary" ∨ t = "varbinary" ∨ t = "image" then "bytea"
  else "text"

/-- `mssql_type_to_pg` (lines 84-116): lower the source type name, then run
the branch chain. -/
def mssql_type_to_pg (data_type : Option String) (char_max_length : Option Int)
    (numeric_precision : Option Int) (numeric_scale : Option Int) : String :=
  mssql_pg_of_lowered (pyLower (data_type.getD "")) numeric_precision numeric_scale

/-- The PostgreSQL type chosen for a column (the call on line 162). -/
def pg_type_of (c : Column) : String :=
  mssql_type_to_pg c.data_type c.char_max_length c.numeric_precision c.numeric_scale

/-- `col_names = [c['name'] for c in cols]` (line 191). -/
def col_names (cols : List Column) : List String := cols.map (fun c => c.name)

/-- The per-column DDL fragments `f'"{name}" {pgtype}'` accumulated into
`cols_sql` by `create_table_sql` (lines 160-164). -/
def ddl_cols_sql (cols : List Column) : List String :=
  cols.map (fun c => "\"" ++ c.name ++ "\" " ++ pg_type_of c)

/-- The bracketed entries of the SELECT column list,
`f'[{c}]' for c in col_names` (line 192). -/
def select_col_entries (cols : List Column) : List String :=
  (col_names cols).map (fun c => "[" ++ c ++ "]")

/-- The SELECT statement built by `export_table_to_csv` (lines 192-196). -/
def select_sql (db schema table : String) (names : List String) : String :=
  "SELECT " ++ String.intercalate ", " (names.map (fun c => "[" ++ c ++ "]"))
    ++ " FROM [" ++ db ++ "].[" ++ schema ++ "].[" ++ table ++ "]"

/-- The quoted COPY target column list entries,
`f'"{c}"' for c in col_names` (line 345). -/
def copy_col_list (names : List String) : List String :=
  names.map (fun c => "\"" ++ c ++ "\"")

/-- `create_table_sql` (lines 159-167): schema-ensuring, `IF NOT EXISTS`
table creation DDL; an empty column list yields a synthetic
`id serial primary key` column. -/
def create_table_sql (pg_schema pg_table : String) (cols : List Column) : String :=
  let cols_sql := ddl_cols_sql cols
  let cols_def := if cols_sql.isEmpty then "id serial primary key"
                  else String.intercalate ", " cols_sql
  "CREATE SCHEMA IF NOT EXISTS \"" ++ pg_schema ++ "\"; CREATE TABLE IF NOT EXISTS \""
    ++ pg_schema ++ "\".\"" ++ pg_table ++ "\" (" ++ cols_def ++ ");"

/-! ## Row serializer: value canonicalization (lines 198-240) -/

/-- Is `c` a UTF-8 continuation byte (`0x80..0xBF`)? -/
def isCont (c : Nat) : Bool := decide (0x80 ≤ c ∧ c ≤ 0xBF)

/-- Valid range of the second byte of a 3-byte UTF-8 sequence with lead `b`
(per the strict decoder: `0xE0` requires `0xA0..0xBF`, `0xED` excludes
surrogates with `0x80..0x9F`). -/
def utf8Second3 (b c1 : Nat) : Bool :=
  if b = 0xE0 then decide (0xA0 ≤ c1 ∧ c1 ≤ 0xBF)
  else if b = 0xED then decide (0x80 ≤ c1 ∧ c1 ≤ 0x9F)
  else isCont c1

/-- Valid range of the second byte of a 4-byte UTF-8 sequence with lead `b`
(`0xF0` requires `0x90..0xBF`, `0xF4` requires `0x80..0x8F`). -/
def utf8Second4 (b c1 : Nat) : Bool :=
  if b = 0xF0 then decide (0x90 ≤ c1 ∧ c1 ≤ 0xBF)
  else if b = 0xF4 then decide (0x80 ≤ c1 ∧ c1 ≤ 0x8F)
  else isCont c1

/-- Strict UTF-8 decoding of a byte list to codepoints, `none` on any
malformed or truncated sequence — the behavior of `bytes.decode('utf8')`
raising `UnicodeDecodeError`. -/
def decodeUtf8 : List Nat → Option (List Nat)
  | [] => some []
  | b :: rest =>
    if b < 0x80 then (decodeUtf8 rest).map (fun cs => b :: cs)
    else if b < 0xC2 then none
    else if b ≤ 0xDF then
      match rest with
      | c1 :: rest1 =>
        if isCont c1 then
          (decodeUtf8 rest1).map (fun cs => ((b - 0xC0) * 0x40 + (c1 - 0x80)) :: cs)
        else none
      | [] => none
    else if b ≤ 0xEF then
      match rest with
      | c1 :: c2 :: rest2 =>
        if utf8Second3 b c1 && isCont c2 then
          (decodeUtf8 rest2).map
            (fun cs => ((b - 0xE0) * 0x1000 + (c1 - 0x80) * 0x40 + (c2 - 0x80)) :: cs)
        else none
      | _ => none
    else if b ≤ 0xF4 then
      match rest with
      | c1 :: c2 :: c3 :: rest3 =>
        if utf8Second4 b c1 && isCont c2 && isCont c3 then
          (decodeUtf8 rest3).map
            (fun cs => ((b - 0xF0) * 0x40000 + (c1 - 0x80) * 0x1000
                        + (c2 - 0x80) * 0x40 + (c3 - 0x80)) :: cs)
        else none
      | _ => none
    else none

/-- Strict UTF-16 little-endian decoding of a byte list to codepoints,
`none` on odd length or unpaired surrogates — the behavior of
`bytes.decode('utf-16-le')` raising `UnicodeDecodeError`. -/
def decodeUtf16le : List Nat → Option (List Nat)
  | [] => some []
  | [_] => none
  | b0 :: b1 :: rest =>
    let u := b0 + 256 * b1
    if u < 0xD800 ∨ 0xDFFF < u then (decodeUtf16le rest).map (fun cs => u :: cs)
    else if u ≤ 0xDBFF then
      match rest with
      | b2 :: b3 :: rest2 =>
        let u2 := b2 + 256 * b3
        if 0xDC00 ≤ u2 ∧ u2 ≤ 0xDFFF then
          (decodeUtf16le rest2).map
            (fun cs => (0x10000 + (u - 0xD800) * 0x400 + (u2 - 0xDC00)) :: cs)
        else none
      | _ => none
    else none

/-- Latin-1 decoding: every byte maps to the codepoint of the same value, so
it is total (`errors='replace'` never triggers). -/
def decodeLatin1 (b : List Nat) : List Nat := b

/-- Render a codepoint list as a Lean string (all codepoints produced by the
decoders above are valid Unicode scalar values). -/
def stringOfCodepoints (cps : List Nat) : String := String.mk (cps.map Char.ofNat)

/-- Left-pad the decimal rendering of `n` with zeros to width `w`. -/
def padZeros (w : Nat) (n : Nat) : String :=
  let s := toString n
  String.mk (List.replicate (w - s.length) '0') ++ s

/-- A Python `datetime.date`. -/
structure PyDate where
  year : Nat
  month : Nat
  day : Nat
deriving Repr, DecidableEq

/-- A Python `datetime.time` (naive). -/
structure PyTime where
  hour : Nat
  minute : Nat
  second : Nat
  microsecond : Nat
deriving Repr, DecidableEq

/-- `date.isoformat()`: `YYYY-MM-DD`. -/
def dateIso (d : PyDate) : String :=
  padZeros 4 d.year ++ "-" ++ padZeros 2 d.month ++ "-" ++ padZeros 2 d.day

/-- `time.isoformat()`: `HH:MM:SS` with `.ffffff` appended only when the
microsecond field is nonzero. -/
def timeIso (t : PyTime) : String :=
  padZeros 2 t.hour ++ ":" ++ padZeros 2 t.minute ++ ":" ++ padZeros 2 t.second
    ++ (if t.microsecond = 0 then "" else "." ++ padZeros 6 t.microsecond)

/-- `str(uuid.UUID)`: 32 lowercase hex digits of the 128-bit value, hyphenated
8-4-4-4-12. -/
def uuidStr (n : Nat) : String :=
  let ds := (List.range 32).map (fun i => Nat.digitChar (n / 16 ^ (31 - i) % 16))
  String.mk (ds.take 8) ++ "-" ++ String.mk ((ds.drop 8).take 4) ++ "-"
    ++ String.mk ((ds.drop 12).take 4) ++ "-" ++ String.mk ((ds.drop 16).take 4) ++ "-"
    ++ String.mk (ds.drop 20)

/-- `str` of a finite `decimal.Decimal` with sign, coefficient digits and
exponent, following the General Decimal Arithmetic `to-scientific-string`
algorithm used by Python (no binary-float rounding anywhere). -/
def decimalStr (sign : Bool) (digits : List Nat) (exp : Int) : String :=
  let ds := String.mk (digits.map Nat.digitChar)
  let len : Int := (digits.length : Int)
  let leftdigits : Int := exp + len
  let dotplace : Int := if exp ≤ 0 ∧ -6 < leftdigits then leftdigits else 1
  let intpart : String :=
    if dotplace ≤ 0 then "0"
    else if len ≤ dotplace then ds ++ String.mk (List.replicate (dotplace - len).toNat '0')
    else String.mk ((digits.map Nat.digitChar).take dotplace.toNat)
  let fracpart : String :=
    if dotplace ≤ 0 then "." ++ String.mk (List.replicate (-dotplace).toNat '0') ++ ds
    else if len ≤ dotplace then ""
    else "." ++ String.mk ((digits.map Nat.digitChar).drop dotplace.toNat)
  let exppart : String :=
    if leftdigits = dotplace then ""
    else
      let e := leftdigits - dotplace
      "E" ++ (if 0 < e then "+" ++ toString e else toString e)
  (if sign then "-" else "") ++ intpart ++ fracpart ++ exppart

/-- A source value as handed to the row-writing loop by the driver
(lines 206-239).  `vother` carries `str(v)` for values of any other type. -/
inductive Value where
  | vnull
  | vdecimal (sign : Bool) (digits : List Nat) (exp : Int)
  | vbytes (b : List Nat)
  | vdatetime (d : PyDate) (t : PyTime)
  | vdate (d : PyDate)
  | vtime (t : PyTime)
  | vuuid (n : Nat)
  | vother (s : String)
deriving Repr, DecidableEq

/-- The per-value canonicalization of the export loop (lines 208-239):
null → empty cell, `Decimal` → `str`, bytes → UTF-8 then UTF-16-LE then
Latin-1-with-replacement decode chain, date/time values → `isoformat()`,
UUID → `str`, anything else → `str`. -/
def serialize_value : Value → String
  | .vnull => ""
  | .vdecimal sg ds e => decimalStr sg ds e
  | .vbytes b =>
    match decodeUtf8 b with
    | some cps => stringOfCodepoints cps
    | none =>
      match decodeUtf16le b with
      | some cps => stringOfCodepoints cps
      | none => stringOfCodepoints (decodeLatin1 b)
  | .vdatetime d t => dateIso d ++ "T" ++ timeIso t
  | .vdate d => dateIso d
  | .vtime t => timeIso t
  | .vuuid n => uuidStr n
  | .vother s => s

/-- One CSV record: the cells of a source row in cursor (= ordinal) order
(lines 207-240). -/
def serialize_row (row : List Value) : List String := row.map serialize_value

/-! ## Export path and bcp fallback (lines 169-274) -/

/-- Is `pat` a contiguous sublist of `l`? -/
def listInfix (pat : List Char) : List Char → Bool
  | [] => pat.isEmpty
  | c :: t => List.isPrefixOf pat (c :: t) || listInfix pat t

/-- Substring test, `pat in s` on Python strings. -/
def strContains (s pat : String) : Bool := listInfix pat.toList s.toList

/-- The exception raised by the primary export path, as the fallback logic
sees it: whether it is a `UnicodeDecodeError`, and its `str(ex)` message. -/
structure ExportError where
  isUnicodeDecodeError : Bool
  message : String
deriving Repr, DecidableEq

/-- `is_codec` (line 245): a `UnicodeDecodeError`, or a message containing
`utf-16` or `codec` case-insensitively. -/
def is_codec_error (ex : ExportError) : Bool :=
  ex.isUnicodeDecodeError || strContains (pyLower ex.message) "utf-16"
    || strContains (pyLower ex.message) "codec"

/-- Python `a or b` on strings: `b` when `a` is missing or empty. -/
def pyOr (v : Option String) (dflt : String) : String :=
  match v with
  | none => dflt
  | some s => if s = "" then dflt else s

/-- `use_bcp = env.get('USE_BCP_FALLBACK','').lower() == 'true'` (line 244). -/
def use_bcp_fallback (env : List (String × String)) : Bool :=
  pyLower ((env.lookup "USE_BCP_FALLBACK").getD "") == "true"

/-- The bcp fallback argv (lines 251-267). -/
def bcp_cmd (sel csvPath : String) (env : List (String × String)) (use_unicode : Bool) :
    List String :=
  ["bcp", sel, "queryout", csvPath,
   if use_unicode then "-w" else "-c",
   "-t\",\"",
   "-S", pyOr (env.lookup "MSSQL_HOST") "" ++ "," ++ pyOr (env.lookup "MSSQL_PORT") "1433",
   "-U", pyOr (env.lookup "MSSQL_USER") "",
   "-P", pyOr (env.lookup "MSSQL_PASS") ""]

/-- How `export_table_to_csv` terminates abnormally: re-raising the primary
exception (line 247), or `raise SystemExit` after a nonzero bcp exit
(line 272). -/
inductive ExportFailure where
  | reraised (ex : ExportError)
  | systemExit (stderr : String)
deriving Repr, DecidableEq

deriving instance DecidableEq for Except

/-- Observable effects of one `export_table_to_csv` call. -/
structure ExportResult where
  /-- Returned column names, or the terminating failure. -/
  outcome : Except ExportFailure (List String)
  /-- Row SELECT statements executed against the source. -/
  selectsExecuted : List String
  /-- Rows of the CSV written by the primary path (`some []` = empty file),
  `none` when the primary path did not complete a file. -/
  fileRows : Option (List (List String))
  /-- The bcp subprocess argv, when the fallback ran. -/
  bcpInvocation : Option (List String)
deriving Repr, DecidableEq

/-- `export_table_to_csv` (lines 169-274), with the driver interactions made
explicit: `rows` are the source rows the cursor would yield, `primaryError`
is the exception the primary read-and-encode path raises (if any), and
`bcpReturncode`/`bcpStderr` describe the fallback subprocess, consulted only
if it runs. -/
def export_table_to_csv (db schema table csvPath : String) (env : List (String × String))
    (cols : List Column) (rows : List (List Value)) (primaryError : Option ExportError)
    (bcpReturncode : Int) (bcpStderr : String) (use_unicode : Bool) : ExportResult :=
  if cols.isEmpty then
    { outcome := .ok [], selectsExecuted := [], fileRows := some [], bcpInvocation := none }
  else
    let names := col_names cols
    let sel := select_sql db schema table names
    match primaryError with
    | none =>
      { outcome := .ok names, selectsExecuted := [sel],
        fileRows := some (rows.map serialize_row), bcpInvocation := none }
    | some ex =>
      if !(use_bcp_fallback env || is_codec_error ex) then
        { outcome := .error (.reraised ex), selectsExecuted := [sel],
          fileRows := none, bcpInvocation := none }
      else
        let cmd := bcp_cmd sel csvPath env use_unicode
        if bcpReturncode ≠ 0 then
          { outcome := .error (.systemExit bcpStderr), selectsExecuted := [sel],
            fileRows := none, bcpInvocation := some cmd }
        else
          { outcome := .ok names, selectsExecuted := [sel],
            fileRows := none, bcpInvocation := some cmd }

/-! ## Format normalizer (`_normalize_csv`, lines 295-340)

An intermediate file is abstracted as the function giving, for each candidate
delimiter, the record list `csv.reader(file, delimiter=d)` would yield. -/

/-- The delimiter candidates in their fixed preference order (line 300). -/
def candidates : List Char := [',', '\t', '|', ';']

/-- Field count of the first record under delimiter `d`
(`len(next(reader, None))`, lines 307-310); `none` when there is no record. -/
def fcOf (file : Char → List (List String)) (d : Char) : Option Nat :=
  (file d).head?.map List.length

/-- The detection loop (lines 301-317): fold over remaining candidates with
state `(best, best_count)`, breaking at the first exact match of `n` and
otherwise tracking the strictly-largest first-record field count. -/
def detGo (fc : Char → Option Nat) (n : Nat) : List Char → Option Char × Nat → Option Char × Nat
  | [], st => st
  | d :: rest, st =>
    match fc d with
    | none => detGo fc n rest st
    | some cnt =>
      if cnt = n then (some d, cnt)
      else if st.2 < cnt then detGo fc n rest (some d, cnt)
      else detGo fc n rest st

/-- Detected `(best, best_count)` with the `if not best: best = ','` default
(lines 321-323). -/
def detect (fc : Char → Option Nat) (n : Nat) : Char × Nat :=
  let st := detGo fc n candidates (none, 0)
  (st.1.getD ',', st.2)

/-- Row padding inside the rewrite loop (lines 336-338). -/
def padRow (n : Nat) (row : List String) : List String :=
  if row.length < n then row ++ List.replicate (n - row.length) "" else row

/-- Result of `_normalize_csv`: the original path reused untouched, or a
rewritten comma-delimited file with the given records. -/
inductive NormResult where
  | original
  | rewritten (rows : List (List String))
deriving Repr, DecidableEq

/-- `_normalize_csv` (lines 295-340): detect the delimiter, return the
original path when it is comma with an exact first-record column-count match,
otherwise rewrite every record read with the detected delimiter, padding
short rows. -/
def normalize_csv (file : Char → List (List String)) (expected_cols : List String) :
    NormResult :=
  let n := expected_cols.length
  let st := detect (fcOf file) n
  if st.1 = ',' ∧ st.2 = n then .original
  else .rewritten ((file st.1).map (padRow n))

/-- The records the bulk loader (comma-delimited COPY, lines 344-351)
consumes: the original file parsed with comma when the normalizer reused it,
the rewritten records otherwise. -/
def rows_handed (file : Char → List (List String)) (expected_cols : List String) :
    List (List String) :=
  match normalize_csv file expected_cols with
  | .original => file ','
  | .rewritten rows => rows

/-! ## Import and cleanup (`import_csv_to_pg`, lines 276-370) -/

/-- Observable effects of one `import_csv_to_pg` call. -/
structure ImportTrace where
  /-- Temporary files created before the load (UTF-16→UTF-8 conversion file,
  normalization rewrite file). -/
  tempFilesCreated : List String
  /-- Paths passed to `os.remove` (in order, duplicates kept). -/
  removeAttempts : List String
  /-- The attempts that actually succeeded. -/
  removed : List String
  /-- Normal return, or the propagated load error. -/
  result : Except String Unit
deriving Repr, DecidableEq

/-- `import_csv_to_pg` (lines 276-370).  `utf8Readable` is whether the 1 KiB
UTF-8 probe read succeeds; `convTempName`/`normTempName` are the fresh names
`tempfile.mkstemp` would hand out; `file` is the (possibly converted) source
file's parse behavior; `loadOk` is whether `COPY ... FROM STDIN` plus commit
succeeds; `removeOk` is whether each `os.remove` succeeds. -/
def import_csv_to_pg (csvPath convTempName normTempName : String) (utf8Readable : Bool)
    (file : Char → List (List String)) (colNames : List String) (loadOk : Bool)
    (removeOk : String → Bool) : ImportTrace :=
  let sourcePath := if utf8Readable then csvPath else convTempName
  let tempConverted : Option String := if utf8Readable then none else some convTempName
  let norm := normalize_csv file colNames
  let normPath := match norm with
    | .original => sourcePath
    | .rewritten _ => normTempName
  let created :=
    (match tempConverted with | some t => [t] | none => [])
      ++ (match norm with | .original => [] | .rewritten _ => [normTempName])
  if !loadOk then
    { tempFilesCreated := created, removeAttempts := [], removed := [],
      result := .error "LoadError" }
  else
    let attempts :=
      (match tempConverted with | some t => [t] | none => [])
        ++ (if normPath ≠ sourcePath then [normPath] else [])
        ++ (match tempConverted with | some t => [t] | none => [])
    { tempFilesCreated := created, removeAttempts := attempts,
      removed := attempts.filter removeOk, result := .ok () }

/-! ## Orchestrator per-table policy (`main`, lines 436-486) -/

/-- The normalized create-only set built from `--create-only`
(lines 437-444): split on commas, strip, drop empties, lowercase. -/
def parse_create_only (arg : Option String) : List String :=
  match arg with
  | none => []
  | some a =>
    if a = "" then []
    else (((pySplit ',' a).map (fun t => pyStrip t)).filter (fun tt => tt != "")).map
      (fun tt => pyLower (pyStrip tt))

/-- The membership test of lines 466-468: unqualified or qualified table name,
stripped and lowercased, against the normalized set. -/
def is_create_only (set : List String) (schema table : String) : Bool :=
  set.contains (pyLower (pyStrip table))
    || set.contains (pyLower (pyStrip (schema ++ "." ++ table)))

/-- `safe_name` (line 477): `f'{schema}_{table}'.replace('.', '_')`. -/
def safe_name (schema table : String) : String :=
  String.mk ((schema ++ "_" ++ table).toList.map (fun c => if c = '.' then '_' else c))

/-- The intermediate file path `os.path.join(export_dir, safe_name + '.csv')`
(line 478). -/
def csv_path_of (exportDir schema table : String) : String :=
  exportDir ++ "/" ++ safe_name schema table ++ ".csv"

/-- Per-table outcome of the orchestrator loop body (lines 452-486). -/
structure TableOutcome where
  /-- The DDL executed against the target before the policy check. -/
  ddlExecuted : String
  /-- Whether data export + import ran for this table. -/
  exported : Bool
  /-- The appended summary entry `(schema, table, marker-or-path)`. -/
  summaryEntry : String × String × String
deriving Repr, DecidableEq

/-- One iteration of the migration loop (lines 452-486): DDL always runs
first; a create-only match skips data transfer and records `(create-only)`,
otherwise the table is exported and imported and the CSV path recorded. -/
def migrate_table (createOnly : List String) (targetSchema exportDir schema table : String)
    (cols : List Column) : TableOutcome :=
  let ddl := create_table_sql targetSchema table cols
  if is_create_only createOnly schema table then
    { ddlExecuted := ddl, exported := false, summaryEntry := (schema, table, "(create-only)") }
  else
    { ddlExecuted := ddl, exported := true,
      summaryEntry := (schema, table, csv_path_of exportDir schema table) }

/-! ## Auxiliary definitions for the claim statements -/

/-- The source type families `mssql_type_to_pg` recognizes (every branch
condition of lines 86-115). -/
def recognizedType (t : String) : Bool :=
  t == "int" || t == "bigint" || t == "smallint" || t == "tinyint" || t == "bit"
    || t == "float" || t == "real" || t == "decimal" || t == "numeric" || t == "money"
    || t == "uniqueidentifier" || strStarts t "varchar" || strStarts t "nvarchar"
    || t == "text" || t == "ntext" || t == "datetime" || t == "datetime2"
    || t == "smalldatetime" || t == "datetimeoffset" || t == "date" || t == "time"
    || t == "binary" || t == "varbinary" || t == "image"

/-- A comma-delimited intermediate file whose first record has 3 fields but
whose second record has only 2 (e.g. the text `a,b,c` then `x,y`); parsing it
with any other candidate delimiter yields single-field records. -/
def exFileA : Char → List (List String) := fun d =>
  if d = ',' then [["a", "b", "c"], ["x", "y"]] else [["r"]]

/-- A pipe-delimited intermediate file with a 3-field first record and a
2-field second record; under any other candidate delimiter every line is a
single field. -/
def exFileB : Char → List (List String) := fun d =>
  if d = '|' then [["a", "b", "c"], ["x", "y"]] else [["q"]]

/-- A tab-delimited file with a 2-field first record; comma parsing sees one
field; pipe and semicolon parsing see one field.  No candidate matches an
expected count of 3, and tab has the most fields. -/
def exFileC : Char → List (List String) := fun d =>
  if d = '\t' then [["u", "v"], ["w"]] else [["u\tv"]]

/-- A file agreeing with `exFileA` on every candidate's first record but
differing in later records. -/
def exFileA2 : Char → List (List String) := fun d =>
  if d = ',' then [["a", "b", "c"]] else [["r"], ["s"]]

/-! ## Helper lemmas -/

theorem numeric_ps_ne_empty (x y : String) : "numeric(" ++ x ++ "," ++ y ++ ")" ≠ "" := by
  intro h
  have hl := congrArg String.length h
  simp only [String.length_append] at hl
  have h1 : String.length ")" = 1 := rfl
  have h0 : String.length "" = 0 := rfl
  rw [h1, h0] at hl
  omega

theorem mssql_pg_of_lowered_ne_empty (t : String) (p s : Option Int) :
    mssql_pg_of_lowered t p s ≠ "" := by
  unfold mssql_pg_of_lowered
  by_cases h1 : t = "int"
  · rw [if_pos h1]; decide
  rw [if_neg h1]
  by_cases h2 : t = "bigint"
  · rw [if_pos h2]; decide
  rw [if_neg h2]
  by_cases h3 : t = "smallint" ∨ t = "tinyint"
  · rw [if_pos h3]; decide
  rw [if_neg h3]
  by_cases h4 : t = "bit"
  · rw [if_pos h4]; decide
  rw [if_neg h4]
  by_cases h5 : t = "float"
  · rw [if_pos h5]; decide
  rw [if_neg h5]
  by_cases h6 : t = "real"
  · rw [if_pos h6]; decide
  rw [if_neg h6]
  by_cases h7 : t = "decimal" ∨ t = "numeric"
  · rw [if_pos h7]
    rcases p with _ | pv <;> rcases s with _ | sv
    · decide
    · show ("numeric" : String) ≠ ""; decide
    · show ("numeric" : String) ≠ ""; decide
    · show (if pv ≠ 0 then "numeric(" ++ toString pv ++ "," ++ toString sv ++ ")"
          else "numeric") ≠ ""
      by_cases hz : pv ≠ 0
      · rw [if_pos hz]; exact numeric_ps_ne_empty _ _
      · rw [if_neg hz]; decide
  rw [if_neg h7]
  by_cases h8 : t = "money"
  · rw [if_pos h8]; decide
  rw [if_neg h8]
  by_cases h9 : t = "uniqueidentifier"
  · rw [if_pos h9]; decide
  rw [if_neg h9]
  by_cases h10 : strStarts t "varchar" = true ∨ strStarts t "nvarchar" = true ∨
      t = "text" ∨ t = "ntext"
  · rw [if_pos h10]; decide
  rw [if_neg h10]
  by_cases h11 : t = "datetime" ∨ t = "datetime2" ∨ t = "smalldatetime" ∨
      t = "datetimeoffset"
  · rw [if_pos h11]; decide
  rw [if_neg h11]
  by_cases h12 : t = "date"
  · rw [if_pos h12]; decide
  rw [if_neg h12]
  by_cases h13 : t = "time"
  · rw [if_pos h13]; decide
  rw [if_neg h13]
  by_cases h14 : t = "binary" ∨ t = "varbinary" ∨ t = "image"
  · rw [if_pos h14]; decide
  rw [if_neg h14]
  decide

theorem mssql_pg_of_lowered_unrecognized (t : String) (p s : Option Int)
    (h : recognizedType t = false) : mssql_pg_of_lowered t p s = "text" := by
  simp only [recognizedType, Bool.or_eq_false_iff, beq_eq_false_iff_ne, ne_eq] at h
  obtain ⟨⟨⟨⟨⟨⟨⟨⟨⟨⟨⟨⟨⟨⟨⟨⟨⟨⟨⟨⟨⟨⟨⟨h1, h2⟩, h3⟩, h4⟩, h5⟩, h6⟩, h7⟩, h8⟩, h9⟩, h10⟩,
    h11⟩, h12⟩, h13⟩, h14⟩, h15⟩, h16⟩, h17⟩, h18⟩, h19⟩, h20⟩, h21⟩, h22⟩, h23⟩, h24⟩ := h
  unfold mssql_pg_of_lowered
  rw [if_neg h1, if_neg h2, if_neg (not_or.mpr ⟨h3, h4⟩), if_neg h5, if_neg h6, if_neg h7,
    if_neg (not_or.mpr ⟨h8, h9⟩), if_neg h10, if_neg h11,
    if_neg (by simp [h12, h13, h14, h15]), if_neg (by simp [h16, h17, h18, h19]),
    if_neg h20, if_neg h21, if_neg (by simp [h22, h23, h24])]

theorem str_ne_of_starts_mismatch (t pre u : String) (h : strStarts t pre = true)
    (hu : strStarts u pre = false) : t ≠ u := by
  intro he
  rw [he, hu] at h
  exact Bool.false_ne_true h

theorem mssql_pg_of_lowered_text_family (t : String) (p s : Option Int)
    (h : strStarts t "varchar" = true ∨ strStarts t "nvarchar" = true ∨
      t = "text" ∨ t = "ntext") :
    mssql_pg_of_lowered t p s = "text" := by
  rcases h with h | h | h | h
  · have n1 := str_ne_of_starts_mismatch t "varchar" "int" h (by decide)
    have n2 := str_ne_of_starts_mismatch t "varchar" "bigint" h (by decide)
    have n3 := str_ne_of_starts_mismatch t "varchar" "smallint" h (by decide)
    have n4 := str_ne_of_starts_mismatch t "varchar" "tinyint" h (by decide)
    have n5 := str_ne_of_starts_mismatch t "varchar" "bit" h (by decide)
    have n6 := str_ne_of_starts_mismatch t "varchar" "float" h (by decide)
    have n7 := str_ne_of_starts_mismatch t "varchar" "real" h (by decide)
    have n8 := str_ne_of_starts_mismatch t "varchar" "decimal" h (by decide)
    have n9 := str_ne_of_starts_mismatch t "varchar" "numeric" h (by decide)
    have n10 := str_ne_of_starts_mismatch t "varchar" "money" h (by decide)
    have n11 := str_ne_of_starts_mismatch t "varchar" "uniqueidentifier" h (by decide)
    unfold mssql_pg_of_lowered
    rw [if_neg n1, if_neg n2, if_neg (not_or.mpr ⟨n3, n4⟩), if_neg n5, if_neg n6, if_neg n7,
      if_neg (not_or.mpr ⟨n8, n9⟩), if_neg n10, if_neg n11, if_pos (Or.inl h)]
  · have n1 := str_ne_of_starts_mismatch t "nvarchar" "int" h (by decide)
    have n2 := str_ne_of_starts_mismatch t "nvarchar" "bigint" h (by decide)
    have n3 := str_ne_of_starts_mismatch t "nvarchar" "smallint" h (by decide)
    have n4 := str_ne_of_starts_mismatch t "nvarchar" "tinyint" h (by decide)
    have n5 := str_ne_of_starts_mismatch t "nvarchar" "bit" h (by decide)
    have n6 := str_ne_of_starts_mismatch t "nvarchar" "float" h (by decide)
    have n7 := str_ne_of_starts_mismatch t "nvarchar" "real" h (by decide)
    have n8 := str_ne_of_starts_mismatch t "nvarchar" "decimal" h (by decide)
    have n9 := str_ne_of_starts_mismatch t "nvarchar" "numeric" h (by decide)
    have n10 := str_ne_of_starts_mismatch t "nvarchar" "money" h (by decide)
    have n11 := str_ne_of_starts_mismatch t "nvarchar" "uniqueidentifier" h (by decide)
    unfold mssql_pg_of_lowered
    rw [if_neg n1, if_neg n2, if_neg (not_or.mpr ⟨n3, n4⟩), if_neg n5, if_neg n6, if_neg n7,
      if_neg (not_or.mpr ⟨n8, n9⟩), if_neg n10, if_neg n11,
      if_pos (Or.inr (Or.inl h))]
  · subst h; rfl
  · subst h; rfl

theorem list_getD_map_of_lt {α β : Type} (f : α → β) (l : List α) (i : Nat)
    (h : i < l.length) (dα : α) (dβ : β) : (l.map f).getD i dβ = f (l.getD i dα) := by
  induction l generalizing i with
  | nil => simp at h
  | cons a l ih =>
    cases i with
    | zero => rfl
    | succ i =>
      simp only [List.map_cons, List.getD_cons_succ]
      exact ih i (by simpa using h)

/-! ## Claim theorems -/

/-- C1: for every table the ordinal column order fixed at introspection time
is used identically in all four artifacts: the `i`-th DDL column entry, the
`i`-th SELECT list entry and the `i`-th COPY target list entry all name the
`i`-th introspected column, and the `i`-th CSV cell of every serialized row
is the serialization of the `i`-th value of that row. -/
theorem C1_column_order (cols : List Column) (row : List Value) (i : Nat)
    (hi : i < cols.length) (hr : row.length = cols.length) :
    (ddl_cols_sql cols).length = cols.length ∧
    (select_col_entries cols).length = cols.length ∧
    (copy_col_list (col_names cols)).length = cols.length ∧
    (serialize_row row).length = cols.length ∧
    (ddl_cols_sql cols).getD i "" =
      "\"" ++ (cols.getD i default).name ++ "\" " ++ pg_type_of (cols.getD i default) ∧
    (select_col_entries cols).getD i "" = "[" ++ (cols.getD i default).name ++ "]" ∧
    (copy_col_list (col_names cols)).getD i "" = "\"" ++ (cols.getD i default).name ++ "\"" ∧
    (serialize_row row).getD i "" = serialize_value (row.getD i .vnull) := by
  refine ⟨by simp [ddl_cols_sql], by simp [select_col_entries, col_names],
    by simp [copy_col_list, col_names], by simp [serialize_row, hr], ?_, ?_, ?_, ?_⟩
  · exact list_getD_map_of_lt _ cols i hi default ""
  · show ((cols.map (fun c => c.name)).map (fun c => "[" ++ c ++ "]")).getD i "" = _
    rw [List.map_map]
    exact list_getD_map_of_lt _ cols i hi default ""
  · show ((cols.map (fun c => c.name)).map (fun c => "\"" ++ c ++ "\"")).getD i "" = _
    rw [List.map_map]
    exact list_getD_map_of_lt _ cols i hi default ""
  · exact list_getD_map_of_lt _ row i (hr ▸ hi) .vnull ""

/-- Witness for C1 at a concrete two-column table and row, index 1. -/
theorem C1_column_order_witness :
    (ddl_cols_sql [⟨"id", some "int", none, none, none⟩,
        ⟨"name", some "nvarchar", some 50, none, none⟩]).getD 1 "" = "\"name\" text" ∧
    (select_col_entries [⟨"id", some "int", none, none, none⟩,
        ⟨"name", some "nvarchar", some 50, none, none⟩]).getD 1 "" = "[name]" ∧
    (copy_col_list (col_names [⟨"id", some "int", none, none, none⟩,
        ⟨"name", some "nvarchar", some 50, none, none⟩])).getD 1 "" = "\"name\"" ∧
    (serialize_row [.vother "1", .vnull]).getD 1 "" = "" := by
  have h := C1_column_order
    [⟨"id", some "int", none, none, none⟩, ⟨"name", some "nvarchar", some 50, none, none⟩]
    [.vother "1", .vnull] 1 (by decide) (by decide)
  refine ⟨?_, h.2.2.2.2.2.1, h.2.2.2.2.2.2.1, h.2.2.2.2.2.2.2⟩
  have h5 := h.2.2.2.2.1
  rw [h5]
  decide

/-- C9: the emitted DDL first ensures the schema exists (`CREATE SCHEMA IF
NOT EXISTS`), creates the table only if absent (`CREATE TABLE IF NOT
EXISTS`), quotes the schema, table and column identifiers, and for an empty
column list creates a single synthetic `id serial primary key` column. -/
theorem C9_ddl_shape (s t : String) (cols : List Column) :
    create_table_sql s t cols =
      "CREATE SCHEMA IF NOT EXISTS \"" ++ s ++ "\"; CREATE TABLE IF NOT EXISTS \"" ++ s
        ++ "\".\"" ++ t ++ "\" ("
        ++ (if cols.isEmpty then "id serial primary key"
            else String.intercalate ", " (ddl_cols_sql cols))
        ++ ");" ∧
    create_table_sql s t ([] : List Column) =
      "CREATE SCHEMA IF NOT EXISTS \"" ++ s ++ "\"; CREATE TABLE IF NOT EXISTS \"" ++ s
        ++ "\".\"" ++ t ++ "\" (" ++ "id serial primary key" ++ ");" := by
  constructor
  · cases cols <;> rfl
  · rfl

/-- C10: with no discovered columns, the export creates an empty intermediate
file, returns an empty column-name sequence, executes no row SELECT and
raises no error. -/
theorem C10_empty_columns (db schema table csvPath : String) (env : List (String × String))
    (rows : List (List Value)) (primaryError : Option ExportError) (rc : Int)
    (stderr : String) (uw : Bool) :
    export_table_to_csv db schema table csvPath env [] rows primaryError rc stderr uw =
      { outcome := .ok [], selectsExecuted := [], fileRows := some [],
        bcpInvocation := none } := rfl

/-- C6: the per-value canonicalization rules, in source priority order:
null → empty cell; `Decimal` → its canonical decimal string; bytes → the
first succeeding decode among UTF-8, UTF-16-LE and total Latin-1-with-
substitution (so byte serialization never fails); date/time/timestamp →
ISO-8601; UUID → canonical hyphenated string; anything else → its default
textual form. -/
theorem C6_value_canonicalization :
    serialize_value .vnull = "" ∧
    (∀ sg ds e, serialize_value (.vdecimal sg ds e) = decimalStr sg ds e) ∧
    (∀ b, serialize_value (.vbytes b) =
      stringOfCodepoints ((decodeUtf8 b).getD ((decodeUtf16le b).getD (decodeLatin1 b)))) ∧
    (∀ b cps, decodeUtf8 b = some cps →
      serialize_value (.vbytes b) = stringOfCodepoints cps) ∧
    (∀ b cps, decodeUtf8 b = none → decodeUtf16le b = some cps →
      serialize_value (.vbytes b) = stringOfCodepoints cps) ∧
    (∀ b, decodeUtf8 b = none → decodeUtf16le b = none →
      serialize_value (.vbytes b) = stringOfCodepoints (decodeLatin1 b)) ∧
    (∀ d t, serialize_value (.vdatetime d t) = dateIso d ++ "T" ++ timeIso t) ∧
    (∀ d, serialize_value (.vdate d) = dateIso d) ∧
    (∀ t, serialize_value (.vtime t) = timeIso t) ∧
    (∀ n, serialize_value (.vuuid n) = uuidStr n) ∧
    (∀ s, serialize_value (.vother s) = s) := by
  refine ⟨rfl, fun _ _ _ => rfl, ?_, ?_, ?_, ?_,
    fun _ _ => rfl, fun _ => rfl, fun _ => rfl, fun _ => rfl, fun _ => rfl⟩
  · intro b
    show (match decodeUtf8 b with
      | some cps => stringOfCodepoints cps
      | none => match decodeUtf16le b with
        | some cps => stringOfCodepoints cps
        | none => stringOfCodepoints (decodeLatin1 b)) = _
    cases decodeUtf8 b <;> cases decodeUtf16le b <;> rfl
  · intro b cps h
    show (match decodeUtf8 b with
      | some cps => stringOfCodepoints cps
      | none => match decodeUtf16le b with
        | some cps => stringOfCodepoints cps
        | none => stringOfCodepoints (decodeLatin1 b)) = _
    rw [h]
  · intro b cps h8 h16
    show (match decodeUtf8 b with
      | some cps => stringOfCodepoints cps
      | none => match decodeUtf16le b with
        | some cps => stringOfCodepoints cps
        | none => stringOfCodepoints (decodeLatin1 b)) = _
    rw [h8, h16]
  · intro b h8 h16
    show (match decodeUtf8 b with
      | some cps => stringOfCodepoints cps
      | none => match decodeUtf16le b with
        | some cps => stringOfCodepoints cps
        | none => stringOfCodepoints (decodeLatin1 b)) = _
    rw [h8, h16]

/-- Witness for C6: a valid-UTF-8 byte string decodes at the first stage; a
UTF-16-LE byte-order mark fails UTF-8 and decodes at the second stage; a
lone `0xFF` fails both and falls through to Latin-1. -/
theorem C6_value_canonicalization_witness :
    serialize_value (.vbytes [0x61, 0xC3, 0xA9]) = stringOfCodepoints [0x61, 0xE9] ∧
    serialize_value (.vbytes [0xFF, 0xFE]) = stringOfCodepoints [0xFEFF] ∧
    serialize_value (.vbytes [0xFF]) = stringOfCodepoints [0xFF] := by
  have h := C6_value_canonicalization
  exact ⟨h.2.2.2.1 [0x61, 0xC3, 0xA9] [0x61, 0xE9] (by decide),
    h.2.2.2.2.1 [0xFF, 0xFE] [0xFEFF] (by decide) (by decide),
    h.2.2.2.2.2.1 [0xFF] (by decide) (by decide)⟩

/-- C7 counterexample: for source type `decimal` with precision and scale
both present but precision `0`, the mapper returns plain `numeric`, not the
`numeric(p,s)` the claim prescribes whenever both are present (Python's
truthiness test on `numeric_precision` rejects `0`). -/
theorem C7_counterexample :
    mssql_type_to_pg (some "decimal") none (some 0) (some 0) = "numeric" ∧
    mssql_type_to_pg (some "decimal") none (some 0) (some 0) ≠ "numeric(0,0)" := by
  decide

/-- C7 (amended): the type mapper is a pure total function of the four
inputs; it always returns a non-empty token; each recognized source family
(case-insensitively) maps per the table, with `decimal`/`numeric` yielding
`numeric(p,s)` only when precision and scale are present and the precision
is nonzero (plain `numeric` otherwise); every unrecognized source type maps
to the default token `text`. -/
theorem C7_amended_type_mapping (dt : Option String) (cml p s : Option Int) :
    mssql_type_to_pg dt cml p s ≠ "" ∧
    (pyLower (dt.getD "") = "int" → mssql_type_to_pg dt cml p s = "integer") ∧
    (pyLower (dt.getD "") = "bigint" → mssql_type_to_pg dt cml p s = "bigint") ∧
    (pyLower (dt.getD "") = "smallint" ∨ pyLower (dt.getD "") = "tinyint" →
      mssql_type_to_pg dt cml p s = "smallint") ∧
    (pyLower (dt.getD "") = "bit" → mssql_type_to_pg dt cml p s = "boolean") ∧
    (pyLower (dt.getD "") = "float" → mssql_type_to_pg dt cml p s = "double precision") ∧
    (pyLower (dt.getD "") = "real" → mssql_type_to_pg dt cml p s = "real") ∧
    (pyLower (dt.getD "") = "decimal" ∨ pyLower (dt.getD "") = "numeric" →
      (∀ pv sv, p = some pv → s = some sv → pv ≠ 0 →
        mssql_type_to_pg dt cml p s = "numeric(" ++ toString pv ++ "," ++ toString sv ++ ")") ∧
      (p = none ∨ p = some 0 ∨ s = none → mssql_type_to_pg dt cml p s = "numeric")) ∧
    (pyLower (dt.getD "") = "money" → mssql_type_to_pg dt cml p s = "numeric(19,4)") ∧
    (pyLower (dt.getD "") = "uniqueidentifier" → mssql_type_to_pg dt cml p s = "uuid") ∧
    (strStarts (pyLower (dt.getD "")) "varchar" = true ∨
        strStarts (pyLower (dt.getD "")) "nvarchar" = true ∨
        pyLower (dt.getD "") = "text" ∨ pyLower (dt.getD "") = "ntext" →
      mssql_type_to_pg dt cml p s = "text") ∧
    (pyLower (dt.getD "") = "datetime" ∨ pyLower (dt.getD "") = "datetime2" ∨
        pyLower (dt.getD "") = "smalldatetime" ∨ pyLower (dt.getD "") = "datetimeoffset" →
      mssql_type_to_pg dt cml p s = "timestamp") ∧
    (pyLower (dt.getD "") = "date" → mssql_type_to_pg dt cml p s = "date") ∧
    (pyLower (dt.getD "") = "time" → mssql_type_to_pg dt cml p s = "time") ∧
    (pyLower (dt.getD "") = "binary" ∨ pyLower (dt.getD "") = "varbinary" ∨
        pyLower (dt.getD "") = "image" → mssql_type_to_pg dt cml p s = "bytea") ∧
    (recognizedType (pyLower (dt.getD "")) = false → mssql_type_to_pg dt cml p s = "text") := by
  refine ⟨?_, ?_, ?_, ?_, ?_, ?_, ?_, ?_, ?_, ?_, ?_, ?_, ?_, ?_, ?_, ?_⟩
  · exact mssql_pg_of_lowered_ne_empty (pyLower (dt.getD "")) p s
  · intro h; simp [mssql_type_to_pg, mssql_pg_of_lowered, h]
  · intro h; simp [mssql_type_to_pg, mssql_pg_of_lowered, h]
  · rintro (h | h) <;> simp [mssql_type_to_pg, mssql_pg_of_lowered, h]
  · intro h; simp [mssql_type_to_pg, mssql_pg_of_lowered, h]
  · intro h; simp [mssql_type_to_pg, mssql_pg_of_lowered, h]
  · intro h; simp [mssql_type_to_pg, mssql_pg_of_lowered, h]
  · intro h
    constructor
    · intro pv sv hp hs hnz
      subst hp; subst hs
      rcases h with h | h <;> simp [mssql_type_to_pg, mssql_pg_of_lowered, h, hnz]
    · rintro (hp | hp | hs)
      · subst hp; rcases h with h | h <;> simp [mssql_type_to_pg, mssql_pg_of_lowered, h]
      · subst hp; rcases h with h | h <;> rcases s with _ | sv <;>
          simp [mssql_type_to_pg, mssql_pg_of_lowered, h]
      · subst hs; rcases h with h | h <;> rcases p with _ | pv <;>
          simp [mssql_type_to_pg, mssql_pg_of_lowered, h]
  · intro h; simp [mssql_type_to_pg, mssql_pg_of_lowered, h]
  · intro h; simp [mssql_type_to_pg, mssql_pg_of_lowered, h]
  · intro h
    exact mssql_pg_of_lowered_text_family (pyLower (dt.getD "")) p s h
  · rintro (h | h | h | h) <;> simp [mssql_type_to_pg, mssql_pg_of_lowered, h] <;> decide
  · intro h; simp [mssql_type_to_pg, mssql_pg_of_lowered, h] <;> decide
  · intro h; simp [mssql_type_to_pg, mssql_pg_of_lowered, h] <;> decide
  · rintro (h | h | h) <;> simp [mssql_type_to_pg, mssql_pg_of_lowered, h] <;> decide
  · intro h
    exact mssql_pg_of_lowered_unrecognized (pyLower (dt.getD "")) p s h

/-- Witness for C7: concrete recognized, parameterized-numeric and
unrecognized source types. -/
theorem C7_type_mapping_witness :
    mssql_type_to_pg (some "Int") none none none = "integer" ∧
    mssql_type_to_pg (some "DECIMAL") none (some 10) (some 2) = "numeric(10,2)" ∧
    mssql_type_to_pg (some "decimal") none (some 0) (some 5) = "numeric" ∧
    mssql_type_to_pg (some "sql_variant") none none none = "text" := by
  have h1 := (C7_amended_type_mapping (some "Int") none none none).2.1 (by decide)
  have h2 := ((C7_amended_type_mapping (some "DECIMAL") none (some 10) (some 2)).2.2.2.2.2.2.2.1
    (Or.inl (by decide))).1 10 2 rfl rfl (by decide)
  have h3 := ((C7_amended_type_mapping (some "decimal") none (some 0) (some 5)).2.2.2.2.2.2.2.1
    (Or.inl (by decide))).2 (Or.inr (Or.inl rfl))
  have h4 := (C7_amended_type_mapping (some "sql_variant")
    none none none).2.2.2.2.2.2.2.2.2.2.2.2.2.2.2 (by decide)
  exact ⟨h1, by simpa using h2, h3, h4⟩

/-- C8: the DDL always runs first; a table whose stripped, lowercased
unqualified or qualified name is in the normalized schema-only set is not
exported and gets a `(create-only)` summary entry; otherwise the full
transfer runs and the CSV path is recorded; the membership test is exactly
set membership of the lowercased names, and tables whose names agree up to
case are treated identically. -/
theorem C8_schema_only_policy (arg : Option String)
    (targetSchema exportDir schema table : String) (cols : List Column) :
    (migrate_table (parse_create_only arg) targetSchema exportDir schema table cols).ddlExecuted
      = create_table_sql targetSchema table cols ∧
    (is_create_only (parse_create_only arg) schema table = true →
      migrate_table (parse_create_only arg) targetSchema exportDir schema table cols =
        { ddlExecuted := create_table_sql targetSchema table cols, exported := false,
          summaryEntry := (schema, table, "(create-only)") }) ∧
    (is_create_only (parse_create_only arg) schema table = false →
      migrate_table (parse_create_only arg) targetSchema exportDir schema table cols =
        { ddlExecuted := create_table_sql targetSchema table cols, exported := true,
          summaryEntry := (schema, table, csv_path_of exportDir schema table) }) ∧
    (is_create_only (parse_create_only arg) schema table = true ↔
      pyLower (pyStrip table) ∈ parse_create_only arg ∨
        pyLower (pyStrip (schema ++ "." ++ table)) ∈ parse_create_only arg) ∧
    (∀ schema2 table2, pyLower (pyStrip table2) = pyLower (pyStrip table) →
      pyLower (pyStrip (schema2 ++ "." ++ table2)) = pyLower (pyStrip (schema ++ "." ++ table)) →
      is_create_only (parse_create_only arg) schema2 table2 =
        is_create_only (parse_create_only arg) schema table) := by
  refine ⟨?_, ?_, ?_, ?_, ?_⟩
  · by_cases h : is_create_only (parse_create_only arg) schema table <;>
      simp [migrate_table, h]
  · intro h; simp [migrate_table, h]
  · intro h; simp [migrate_table, h]
  · simp [is_create_only, List.contains]
  · intro s2 t2 h1 h2; simp [is_create_only, h1, h2]

/-- Witness for C8: `MASUSER` matches a schema-only entry `MasUser`
case-insensitively and is skipped; `Orders` does not match and is fully
transferred. -/
theorem C8_schema_only_witness :
    migrate_table (parse_create_only (some "MasUser, dbo.Secret")) "public" "exports"
        "dbo" "MASUSER" [] =
      { ddlExecuted := create_table_sql "public" "MASUSER" [], exported := false,
        summaryEntry := ("dbo", "MASUSER", "(create-only)") } ∧
    migrate_table (parse_create_only (some "MasUser, dbo.Secret")) "public" "exports"
        "dbo" "Orders" [] =
      { ddlExecuted := create_table_sql "public" "Orders" [], exported := true,
        summaryEntry := ("dbo", "Orders", csv_path_of "exports" "dbo" "Orders") } := by
  exact ⟨(C8_schema_only_policy (some "MasUser, dbo.Secret") "public" "exports" "dbo"
      "MASUSER" []).2.1 (by decide),
    (C8_schema_only_policy (some "MasUser, dbo.Secret") "public" "exports" "dbo"
      "Orders" []).2.2.1 (by decide)⟩

/-- C5: when the primary export path raises, the bcp fallback runs if and
only if the error is codec-classified or the `USE_BCP_FALLBACK` flag is
enabled; the fallback is invoked with the same SELECT statement as argv
entry 1; any other error is re-raised; and a nonzero bcp exit terminates the
run via `SystemExit`. -/
theorem C5_fallback_protocol (db schema table csvPath : String)
    (env : List (String × String)) (cols : List Column) (rows : List (List Value))
    (ex : ExportError) (rc : Int) (stderr : String) (uw : Bool) (hcols : cols ≠ []) :
    ((use_bcp_fallback env || is_codec_error ex) = false →
      export_table_to_csv db schema table csvPath env cols rows (some ex) rc stderr uw =
        { outcome := .error (.reraised ex),
          selectsExecuted := [select_sql db schema table (col_names cols)],
          fileRows := none, bcpInvocation := none }) ∧
    ((use_bcp_fallback env || is_codec_error ex) = true →
      (export_table_to_csv db schema table csvPath env cols rows
          (some ex) rc stderr uw).bcpInvocation
        = some (bcp_cmd (select_sql db schema table (col_names cols)) csvPath env uw) ∧
      (bcp_cmd (select_sql db schema table (col_names cols)) csvPath env uw).getD 1 ""
        = select_sql db schema table (col_names cols) ∧
      (rc ≠ 0 →
        (export_table_to_csv db schema table csvPath env cols rows
            (some ex) rc stderr uw).outcome = .error (.systemExit stderr)) ∧
      (rc = 0 →
        (export_table_to_csv db schema table csvPath env cols rows
            (some ex) rc stderr uw).outcome = .ok (col_names cols))) := by
  obtain ⟨c, cs, rfl⟩ : ∃ c cs, cols = c :: cs := by
    cases cols with
    | nil => exact absurd rfl hcols
    | cons c cs => exact ⟨c, cs, rfl⟩
  constructor
  · intro h
    simp [export_table_to_csv, h]
  · intro h
    refine ⟨?_, rfl, ?_, ?_⟩
    · by_cases hrc : rc = 0 <;> simp [export_table_to_csv, h, hrc]
    · intro hrc; simp [export_table_to_csv, h, hrc]
    · intro hrc; subst hrc; simp [export_table_to_csv, h]

/-- Witness for C5: a non-codec error with the flag unset is re-raised; a
`utf-16` error triggers the fallback, which succeeds at exit code 0 and is
fatal at exit code 1. -/
theorem C5_fallback_witness :
    export_table_to_csv "db" "dbo" "T" "/tmp/t.csv" [("USE_BCP_FALLBACK", "")]
        [⟨"id", some "int", none, none, none⟩] [] (some ⟨false, "timeout expired"⟩)
        7 "boom" true =
      { outcome := .error (.reraised ⟨false, "timeout expired"⟩),
        selectsExecuted :=
          [select_sql "db" "dbo" "T" (col_names [⟨"id", some "int", none, none, none⟩])],
        fileRows := none, bcpInvocation := none } ∧
    (export_table_to_csv "db" "dbo" "T" "/tmp/t.csv" [("USE_BCP_FALLBACK", "")]
        [⟨"id", some "int", none, none, none⟩] [] (some ⟨false, "ERROR: UTF-16 stream"⟩)
        0 "" true).outcome = .ok (col_names [⟨"id", some "int", none, none, none⟩]) ∧
    (export_table_to_csv "db" "dbo" "T" "/tmp/t.csv" [("USE_BCP_FALLBACK", "")]
        [⟨"id", some "int", none, none, none⟩] [] (some ⟨false, "ERROR: UTF-16 stream"⟩)
        1 "boom" true).outcome = .error (.systemExit "boom") := by
  refine ⟨?_, ?_, ?_⟩
  · exact (C5_fallback_protocol "db" "dbo" "T" "/tmp/t.csv" [("USE_BCP_FALLBACK", "")]
      [⟨"id", some "int", none, none, none⟩] [] ⟨false, "timeout expired"⟩ 7 "boom" true
      (by decide)).1 (by decide)
  · exact ((C5_fallback_protocol "db" "dbo" "T" "/tmp/t.csv" [("USE_BCP_FALLBACK", "")]
      [⟨"id", some "int", none, none, none⟩] [] ⟨false, "ERROR: UTF-16 stream"⟩ 0 "" true
      (by decide)).2 (by decide)).2.2.2 rfl
  · exact ((C5_fallback_protocol "db" "dbo" "T" "/tmp/t.csv" [("USE_BCP_FALLBACK", "")]
      [⟨"id", some "int", none, none, none⟩] [] ⟨false, "ERROR: UTF-16 stream"⟩ 1 "boom" true
      (by decide)).2 (by decide)).2.2.1 (by decide)

/-- C2 counterexample: when the bulk-copy load fails, `import_csv_to_pg`
propagates the error without attempting a single `os.remove`, although both
temporary files (the UTF-16 conversion file and the normalization rewrite
file) were created — the cleanup code sits after the load with no
`try/finally`. -/
theorem C2_counterexample :
    (import_csv_to_pg "t.csv" "conv.csv" "norm.csv" false (fun _ => []) ["a"] false
        (fun _ => true)).tempFilesCreated = ["conv.csv", "norm.csv"] ∧
    (import_csv_to_pg "t.csv" "conv.csv" "norm.csv" false (fun _ => []) ["a"] false
        (fun _ => true)).removeAttempts = [] ∧
    (import_csv_to_pg "t.csv" "conv.csv" "norm.csv" false (fun _ => []) ["a"] false
        (fun _ => true)).result = .error "LoadError" := by
  decide

/-- C2 (amended): when the bulk-copy load succeeds, every temporary file
created during the import (conversion and normalization files) is passed to
`os.remove`, and a failure of the deletion itself is swallowed: the call
still returns normally whatever `removeOk` says.  When the load fails, no
cleanup is attempted and the temp files are left behind. -/
theorem C2_amended_cleanup (csvPath convTempName normTempName : String)
    (utf8Readable : Bool) (file : Char → List (List String)) (colNames : List String)
    (removeOk : String → Bool)
    (hn1 : normTempName ≠ csvPath) (hn2 : normTempName ≠ convTempName) :
    ((∀ f ∈ (import_csv_to_pg csvPath convTempName normTempName utf8Readable file colNames
        true removeOk).tempFilesCreated,
      f ∈ (import_csv_to_pg csvPath convTempName normTempName utf8Readable file colNames
        true removeOk).removeAttempts) ∧
      (import_csv_to_pg csvPath convTempName normTempName utf8Readable file colNames
        true removeOk).result = .ok ()) ∧
    (import_csv_to_pg csvPath convTempName normTempName utf8Readable file colNames
        false removeOk).removeAttempts = [] := by
  refine ⟨⟨?_, ?_⟩, ?_⟩
  · intro f hf
    cases hn : normalize_csv file colNames with
    | original =>
      cases utf8Readable <;> simp_all [import_csv_to_pg, hn]
    | rewritten rows =>
      cases utf8Readable <;> simp_all [import_csv_to_pg, hn, hn1, hn2] <;> tauto
  · cases hn : normalize_csv file colNames <;> cases utf8Readable <;>
      simp [import_csv_to_pg, hn]
  · cases hn : normalize_csv file colNames <;> cases utf8Readable <;>
      simp [import_csv_to_pg, hn]

/-- Witness for C2 (amended) on a concrete pipe-delimited import that
created both temp files, with every `os.remove` failing. -/
theorem C2_cleanup_witness :
    ((∀ f ∈ (import_csv_to_pg "t.csv" "conv.csv" "norm.csv" false exFileB
        ["c1", "c2", "c3"] true (fun _ => false)).tempFilesCreated,
      f ∈ (import_csv_to_pg "t.csv" "conv.csv" "norm.csv" false exFileB
        ["c1", "c2", "c3"] true (fun _ => false)).removeAttempts) ∧
      (import_csv_to_pg "t.csv" "conv.csv" "norm.csv" false exFileB
        ["c1", "c2", "c3"] true (fun _ => false)).result = .ok ()) ∧
    (import_csv_to_pg "t.csv" "conv.csv" "norm.csv" false exFileB
        ["c1", "c2", "c3"] false (fun _ => false)).removeAttempts = [] := by
  exact C2_amended_cleanup "t.csv" "conv.csv" "norm.csv" false exFileB ["c1", "c2", "c3"]
    (fun _ => false) (by decide) (by decide)

/-- C3 counterexample: a comma-delimited file whose first record has exactly
N=3 fields is reused untouched, so its second record — which has only 2
fields — is handed to the bulk loader unpadded, contradicting the claim that
every handed row with fewer than N fields is padded to exactly N. -/
theorem C3_counterexample :
    rows_handed exFileA ["c1", "c2", "c3"] = [["a", "b", "c"], ["x", "y"]] ∧
    (∃ r ∈ rows_handed exFileA ["c1", "c2", "c3"], r.length < 3) := by
  decide

/-- C3 (amended): whenever the normalizer rewrites the file (every case
except the untouched early return of a comma-delimited file whose first
record already has exactly N fields), every emitted row has at least N
fields: each input row is mapped through `padRow`, and a row with fewer than
N fields is extended with exactly the missing number of empty cells, ending
at exactly N fields. -/
theorem C3_amended_padding (file : Char → List (List String)) (cols : List String)
    (rows : List (List String)) (h : normalize_csv file cols = .rewritten rows) :
    (∀ r ∈ rows, cols.length ≤ r.length) ∧
    (∃ d, rows = (file d).map (padRow cols.length)) ∧
    (∀ r, r.length < cols.length →
      padRow cols.length r = r ++ List.replicate (cols.length - r.length) "" ∧
      (padRow cols.length r).length = cols.length) := by
  unfold normalize_csv at h
  dsimp only at h
  split at h
  · exact absurd h (by simp)
  · injection h with h
    subst h
    refine ⟨?_, ⟨_, rfl⟩, ?_⟩
    · intro r hr
      obtain ⟨r0, _, rfl⟩ := List.mem_map.mp hr
      unfold padRow
      by_cases hl : r0.length < cols.length
      · rw [if_pos hl]
        simp
        omega
      · rw [if_neg hl]
        omega
    · intro r hl
      constructor
      · simp [padRow, hl]
      · simp [padRow, hl]
        omega

/-- Witness for C3 (amended): the pipe-delimited file is rewritten; all
emitted rows have 3 fields, and the 2-field row gained one empty cell. -/
theorem C3_padding_witness :
    (∀ r ∈ [["a", "b", "c"], ["x", "y", ""]], 3 ≤ List.length r) ∧
    padRow 3 ["x", "y"] = ["x", "y", ""] := by
  have h := C3_amended_padding exFileB ["c1", "c2", "c3"]
    [["a", "b", "c"], ["x", "y", ""]] (by decide)
  exact ⟨fun r hr => h.1 r hr, (h.2.2 ["x", "y"] (by decide)).1⟩

/-! ### Detection-loop lemmas for C4 -/

theorem detGo_congr (fc g : Char → Option Nat) (n : Nat) :
    ∀ (cs : List Char) (st : Option Char × Nat), (∀ c ∈ cs, fc c = g c) →
      detGo fc n cs st = detGo g n cs st := by
  intro cs
  induction cs with
  | nil => intro st _; rfl
  | cons d rest ih =>
    intro st h
    have hd : fc d = g d := h d (List.mem_cons_self d rest)
    have hrest : ∀ c ∈ rest, fc c = g c := fun c hc => h c (List.mem_cons_of_mem d hc)
    simp only [detGo, hd]
    cases g d with
    | none => exact ih st hrest
    | some cnt =>
      by_cases hc : cnt = n
      · simp [hc]
      · simp only [if_neg hc]
        by_cases h2 : st.2 < cnt
        · simp only [if_pos h2]; exact ih _ hrest
        · simp only [if_neg h2]; exact ih st hrest

theorem detGo_exact (fc : Char → Option Nat) (n : Nat) (c : Char) :
    ∀ (cs : List Char), cs.find? (fun d => fc d == some n) = some c →
      ∀ st, detGo fc n cs st = (some c, n) := by
  intro cs
  induction cs with
  | nil => intro hfind; simp at hfind
  | cons d rest ih =>
    intro hfind st
    by_cases hd : (fc d == some n) = true
    · simp only [List.find?, hd] at hfind
      injection hfind with hc
      subst hc
      have hfd : fc d = some n := by simpa using hd
      simp [detGo, hfd]
    · have hd' : (fc d == some n) = false := by simpa using hd
      simp only [List.find?, hd'] at hfind
      have hne : fc d ≠ some n := by simpa using hd
      simp only [detGo]
      cases hfc : fc d with
      | none => exact ih hfind st
      | some cnt =>
        have hcnt : cnt ≠ n := by rintro rfl; exact hne hfc
        simp only [if_neg hcnt]
        by_cases h2 : st.2 < cnt
        · simp only [if_pos h2]; exact ih hfind _
        · simp only [if_neg h2]; exact ih hfind st

theorem detGo_no_update (fc : Char → Option Nat) (n : Nat) :
    ∀ (cs : List Char) (st : Option Char × Nat),
      (∀ d ∈ cs, ∀ k, fc d = some k → k ≠ n ∧ k ≤ st.2) → detGo fc n cs st = st := by
  intro cs
  induction cs with
  | nil => intro st _; rfl
  | cons d rest ih =>
    intro st h
    simp only [detGo]
    cases hfc : fc d with
    | none => exact ih st (fun d' hd' => h d' (List.mem_cons_of_mem d hd'))
    | some cnt =>
      obtain ⟨hne, hle⟩ := h d (List.mem_cons_self d rest) cnt hfc
      simp only [if_neg hne]
      rw [if_neg (by omega : ¬st.2 < cnt)]
      exact ih st (fun d' hd' => h d' (List.mem_cons_of_mem d hd'))

theorem detGo_max (fc : Char → Option Nat) (n m : Nat) :
    ∀ (cs : List Char) (st : Option Char × Nat) (c : Char),
      (∀ d ∈ cs, fc d ≠ some n) →
      (∀ d ∈ cs, ∀ k, fc d = some k → k ≤ m) →
      cs.find? (fun d => fc d == some m) = some c →
      st.2 < m →
      detGo fc n cs st = (some c, m) := by
  intro cs
  induction cs with
  | nil => intro st c _ _ hfind _; simp at hfind
  | cons d rest ih =>
    intro st c hne hle hfind hst
    by_cases hd : (fc d == some m) = true
    · simp only [List.find?, hd] at hfind
      injection hfind with hc
      subst hc
      have hfd : fc d = some m := by simpa using hd
      have hmn : m ≠ n := fun hEq => hne d (List.mem_cons_self d rest) (hEq ▸ hfd)
      simp only [detGo, hfd, if_neg hmn, if_pos hst]
      exact detGo_no_update fc n rest (some d, m) (fun d' hd' k hk =>
        ⟨fun hEq => hne d' (List.mem_cons_of_mem d hd') (hEq ▸ hk),
         hle d' (List.mem_cons_of_mem d hd') k hk⟩)
    · have hd' : (fc d == some m) = false := by simpa using hd
      simp only [List.find?, hd'] at hfind
      have hdm : fc d ≠ some m := by simpa using hd
      have hne' : ∀ d' ∈ rest, fc d' ≠ some n :=
        fun d' hd' => hne d' (List.mem_cons_of_mem d hd')
      have hle' : ∀ d' ∈ rest, ∀ k, fc d' = some k → k ≤ m :=
        fun d' hd' => hle d' (List.mem_cons_of_mem d hd')
      simp only [detGo]
      cases hfc : fc d with
      | none => exact ih st c hne' hle' hfind hst
      | some cnt =>
        have hcn : cnt ≠ n := fun hEq => hne d (List.mem_cons_self d rest) (hEq ▸ hfc)
        have hcm : cnt ≤ m := hle d (List.mem_cons_self d rest) cnt hfc
        have hcm' : cnt ≠ m := fun hEq => hdm (hEq ▸ hfc)
        simp only [if_neg hcn]
        by_cases h2 : st.2 < cnt
        · simp only [if_pos h2]
          exact ih (some d, cnt) c hne' hle' hfind (by omega)
        · simp only [if_neg h2]
          exact ih st c hne' hle' hfind hst

/-- C4: delimiter detection tries comma, tab, pipe, semicolon in that fixed
order; it depends on the file only through each candidate's first record;
the first candidate whose first record has exactly N fields wins (with that
count); and when no candidate matches exactly, the first candidate whose
first-record field count attains the maximum is chosen (provided every
candidate parse yields a first record, as parses of one same file do). -/
theorem C4_delimiter_detection (file1 file2 : Char → List (List String)) (n m : Nat)
    (c0 cm : Char) :
    candidates = [',', '\t', '|', ';'] ∧
    ((∀ c ∈ candidates, fcOf file1 c = fcOf file2 c) →
      detect (fcOf file1) n = detect (fcOf file2) n) ∧
    (candidates.find? (fun d => fcOf file1 d == some n) = some c0 →
      detect (fcOf file1) n = (c0, n)) ∧
    ((∀ c ∈ candidates, (fcOf file1 c).isSome = true) →
      (∀ c ∈ candidates, fcOf file1 c ≠ some n) →
      (∀ c ∈ candidates, ∀ k, fcOf file1 c = some k → k ≤ m) →
      candidates.find? (fun d => fcOf file1 d == some m) = some cm →
      (detect (fcOf file1) n).1 = cm) := by
  refine ⟨rfl, ?_, ?_, ?_⟩
  · intro h
    unfold detect
    rw [detGo_congr (fcOf file1) (fcOf file2) n candidates (none, 0) h]
  · intro hfind
    unfold detect
    rw [detGo_exact (fcOf file1) n c0 candidates hfind (none, 0)]
    rfl
  · intro hex hne hle hfind
    rcases Nat.eq_zero_or_pos m with hm | hm
    · subst hm
      have hzero : ∀ d ∈ candidates, ∀ k, fcOf file1 d = some k → k ≠ n ∧ k ≤ 0 :=
        fun d hd k hk =>
          ⟨fun hEq => hne d hd (hEq ▸ hk), hle d hd k hk⟩
      unfold detect
      rw [detGo_no_update (fcOf file1) n candidates (none, 0) hzero]
      obtain ⟨k, hk⟩ := Option.isSome_iff_exists.mp (hex ',' (by decide))
      have hk0 : k = 0 := Nat.le_zero.mp (hle ',' (by decide) k hk)
      subst hk0
      have hpred : (fcOf file1 ',' == some 0) = true := by simp [hk]
      rw [show candidates = ',' :: ['\t', '|', ';'] from rfl] at hfind
      simp only [List.find?, hpred] at hfind
      exact Option.some.inj hfind
    · unfold detect
      rw [detGo_max (fcOf file1) n m candidates (none, 0) cm hne hle hfind hm]
      rfl

/-- Witness for C4: on the comma file the first exact match (comma, 3
fields) wins; on the tab file no candidate has 3 fields and tab, whose first
record has the most fields (2), is chosen; and a file agreeing with the
comma file on every candidate's first record detects identically. -/
theorem C4_detection_witness :
    detect (fcOf exFileA) 3 = (',', 3) ∧
    (detect (fcOf exFileC) 3).1 = '\t' ∧
    detect (fcOf exFileA) 3 = detect (fcOf exFileA2) 3 := by
  refine ⟨?_, ?_, ?_⟩
  · exact (C4_delimiter_detection exFileA exFileA 3 0 ',' ',').2.2.1 (by decide)
  · exact (C4_delimiter_detection exFileC exFileC 3 2 ',' '\t').2.2.2
      (by decide) (by decide) (by decide) (by decide)
  · exact (C4_delimiter_detection exFileA exFileA2 3 0 ',' ',').2.1 (by decide)

end Migrate
